import Mathlib

/-!
Verification of the session-authentication subsystem of the nextq
repository (src/modules/auth). Strings of the TypeScript source are
embedded as lists of characters. The jsonwebtoken and bcryptjs
libraries are external to the repository and are modelled from the
spec; all other definitions are direct translations of the source
functions in src/modules/auth/api/utils.ts, the resolver file and
models.ts.
-/

/-- Strings of the source program, embedded as lists of characters. -/
abbrev Str := List Char

/-! ### Modelled token codec (external jsonwebtoken library)

Modelled from the spec: the Token Codec signs claims plus an expiry
computed as now + ttl into a deterministic-format token string, and
verification checks signature validity and expiry, returning the
claims on success and a uniform invalid result otherwise (spec 4.1).
Tokens are encoded over the two-character alphabet 0/1: a natural
number is encoded as a unary length run followed by its binary
digits, a string as its encoded length followed by the encoded
code points of its characters. The signature is modelled
symbolically: a token is valid for a secret exactly when it equals
the deterministic signing of its own claims under that secret. -/

/-- Little-endian binary digits of a natural number, as 0/1
characters, computed with structural fuel so that terms reduce. -/
def binDigitsAux : Nat → Nat → List Char
  | 0, _ => []
  | fuel + 1, n =>
    if n = 0 then []
    else (if n % 2 = 1 then '1' else '0') :: binDigitsAux fuel (n / 2)

/-- Little-endian binary digits of a natural number. -/
def binDigits (n : Nat) : List Char := binDigitsAux n n

/-- Reads little-endian binary digits back into a natural number. -/
def bitsToNat : List Char → Nat
  | [] => 0
  | c :: cs => (if c = '1' then 1 else 0) + 2 * bitsToNat cs

/-- Self-delimiting encoding of a natural number: a unary run of 1s
giving the digit count, a 0 marker, then the binary digits. -/
def serNat (n : Nat) : Str :=
  List.replicate (binDigits n).length '1' ++ '0' :: binDigits n

/-- Parses a serNat-encoded natural number from the front of the
input, returning the value and the remaining input. -/
def parseNat (l : Str) : Option (Nat × Str) :=
  let rest0 := l.dropWhile (· = '1')
  let k := (l.takeWhile (· = '1')).length
  if rest0.head? = some '0' then
    let rest := rest0.tail
    if k ≤ rest.length then some (bitsToNat (rest.take k), rest.drop k)
    else none
  else none

/-- Encoding of a character sequence: each code point serNat-encoded. -/
def serChars : List Char → Str
  | [] => []
  | c :: cs => serNat c.toNat ++ serChars cs

/-- Self-delimiting encoding of a string: its length then its characters. -/
def serStr (s : Str) : Str := serNat s.length ++ serChars s

/-- Parses k serNat-encoded characters from the front of the input. -/
def parseChars : Nat → Str → Option (List Char × Str)
  | 0, l => some ([], l)
  | k + 1, l =>
    (parseNat l).bind fun p =>
      (parseChars k p.2).bind fun q => some (Char.ofNat p.1 :: q.1, q.2)

/-- Parses a serStr-encoded string from the front of the input. -/
def parseStr (l : Str) : Option (Str × Str) :=
  (parseNat l).bind fun p => parseChars p.1 p.2

/-- Modelled from the spec: jsonwebtoken sign for the access-token
claim shape, a record holding only the user id (utils.ts line 30),
with the expiry baked into the token. Kind tag 0 marks access tokens. -/
def jwtSignAccess (userId : Str) (secret : Str) (exp : Nat) : Str :=
  serNat 0 ++ (serStr userId ++ (serNat exp ++ serStr secret))

/-- Modelled from the spec: jsonwebtoken sign for the refresh-token
claim shape, a record holding the user id and the revocation count
(utils.ts line 43). Kind tag 1 marks refresh tokens. -/
def jwtSignRefresh (userId : Str) (count : Nat) (secret : Str) (exp : Nat) : Str :=
  serNat 1 ++ (serStr userId ++ (serNat count ++ (serNat exp ++ serStr secret)))

/-- Modelled from the spec: jsonwebtoken verify for access tokens.
Returns the embedded user id when the token is a well-formed access
token signed with the given secret whose expiry lies in the future,
and the uniform invalid result none otherwise (bad signature, corrupt
encoding, expiry in the past). -/
def jwtVerifyAccess (tok : Str) (secret : Str) (now : Nat) : Option Str :=
  (parseNat tok).bind fun p1 =>
    if p1.1 = 0 then
      (parseStr p1.2).bind fun p2 =>
        (parseNat p2.2).bind fun p3 =>
          if tok = jwtSignAccess p2.1 secret p3.1 ∧ now < p3.1 then some p2.1
          else none
    else none

/-- Modelled from the spec: jsonwebtoken verify for refresh tokens.
Returns the embedded user id and revocation count on a valid,
unexpired refresh token under the given secret, none otherwise. -/
def jwtVerifyRefresh (tok : Str) (secret : Str) (now : Nat) : Option (Str × Nat) :=
  (parseNat tok).bind fun p1 =>
    if p1.1 = 1 then
      (parseStr p1.2).bind fun p2 =>
        (parseNat p2.2).bind fun p3 =>
          (parseNat p3.2).bind fun p4 =>
            if tok = jwtSignRefresh p2.1 p3.1 secret p4.1 ∧ now < p4.1 then
              some (p2.1, p3.1)
            else none
    else none

/-! ### Codec roundtrip lemmas -/

theorem bitsToNat_binDigitsAux (fuel n : Nat) (hf : n ≤ fuel) :
    bitsToNat (binDigitsAux fuel n) = n := by
  induction fuel generalizing n with
  | zero =>
    have : n = 0 := Nat.le_zero.mp hf
    simp [this, binDigitsAux, bitsToNat]
  | succ f ih =>
    rw [binDigitsAux]
    by_cases h : n = 0
    · simp [h, bitsToNat]
    · rw [if_neg h, bitsToNat, ih (n / 2) (by omega)]
      by_cases h2 : n % 2 = 1
      · rw [if_pos h2, if_pos rfl]; omega
      · rw [if_neg h2, if_neg (by decide : ¬('0' : Char) = '1')]; omega

theorem bitsToNat_binDigits (n : Nat) : bitsToNat (binDigits n) = n :=
  bitsToNat_binDigitsAux n n le_rfl

theorem takeWhile_ser (k : Nat) (r : Str) :
    (List.replicate k '1' ++ '0' :: r).takeWhile (· = '1') = List.replicate k '1' := by
  induction k with
  | zero => simp [List.takeWhile]
  | succ m ih => simp [List.replicate_succ, List.takeWhile, ih]

theorem dropWhile_ser (k : Nat) (r : Str) :
    (List.replicate k '1' ++ '0' :: r).dropWhile (· = '1') = '0' :: r := by
  induction k with
  | zero => simp [List.dropWhile]
  | succ m ih => simp [List.replicate_succ, List.dropWhile, ih]

theorem parseNat_ser (n : Nat) (r : Str) :
    parseNat (serNat n ++ r) = some (n, r) := by
  have hta : ((serNat n ++ r).takeWhile (· = '1')) = List.replicate (binDigits n).length '1' := by
    rw [serNat, List.append_assoc, List.cons_append, takeWhile_ser]
  have hdr : ((serNat n ++ r).dropWhile (· = '1')) = '0' :: (binDigits n ++ r) := by
    rw [serNat, List.append_assoc, List.cons_append, dropWhile_ser]
  have hlen : (binDigits n).length ≤ (binDigits n ++ r).length := by
    simp [List.length_append]
  rw [parseNat]
  simp only [hta, hdr, List.length_replicate, List.head?_cons, List.tail_cons]
  rw [if_true, if_pos hlen, List.take_left, List.drop_left, bitsToNat_binDigits]

theorem parseChars_ser (s : List Char) (r : Str) :
    parseChars s.length (serChars s ++ r) = some (s, r) := by
  induction s generalizing r with
  | nil => simp [serChars, parseChars]
  | cons c cs ih =>
    have hrw : serChars (c :: cs) ++ r = serNat c.toNat ++ (serChars cs ++ r) := by
      rw [serChars, List.append_assoc]
    rw [List.length_cons, hrw, parseChars, parseNat_ser, Option.some_bind, ih,
      Option.some_bind, Char.ofNat_toNat]

theorem parseStr_ser (s : Str) (r : Str) :
    parseStr (serStr s ++ r) = some (s, r) := by
  rw [serStr, List.append_assoc, parseStr, parseNat_ser, Option.some_bind, parseChars_ser]

theorem jwtVerifyAccess_sign (uid secret : Str) (exp now : Nat) (h : now < exp) :
    jwtVerifyAccess (jwtSignAccess uid secret exp) secret now = some uid := by
  conv_lhs => rw [jwtVerifyAccess, jwtSignAccess, parseNat_ser, Option.some_bind]
  rw [if_pos rfl, parseStr_ser, Option.some_bind, parseNat_ser, Option.some_bind,
    if_pos ⟨rfl, h⟩]

theorem jwtVerifyRefresh_sign (uid secret : Str) (cnt exp now : Nat) (h : now < exp) :
    jwtVerifyRefresh (jwtSignRefresh uid cnt secret exp) secret now = some (uid, cnt) := by
  conv_lhs => rw [jwtVerifyRefresh, jwtSignRefresh, parseNat_ser, Option.some_bind]
  rw [if_pos rfl, parseStr_ser, Option.some_bind, parseNat_ser, Option.some_bind,
    parseNat_ser, Option.some_bind, if_pos ⟨rfl, h⟩]

/-! ### Data model (models.ts) -/

/-- User record as stored (models.ts lines 5-10); the Mongo ObjectID
is embedded as its hex string. -/
structure User where
  _id : Str
  email : Str
  passwordHash : Str
  count : Nat
deriving DecidableEq

/-- The users collection of the external store, as a list of documents. -/
abbrev UserStore := List User

/-- Translation of findUserById (models.ts lines 83-86): first
document whose id matches. -/
def findUserById (store : UserStore) (id : Str) : Option User :=
  store.find? (fun u => u._id = id)

/-- Translation of findUserByEmail (models.ts lines 74-76). -/
def findUserByEmail (store : UserStore) (email : Str) : Option User :=
  store.find? (fun u => u.email = email)

/-- Translation of isUser (models.ts lines 106-107). -/
def isUser (store : UserStore) (email : Str) : Bool :=
  (findUserByEmail store email).isSome

/-- Modelled from the spec: the bcryptjs salted one-way hash (spec 4.3);
the hash is modelled as a tagged copy of the password, which keeps the
comparison below faithful (compare succeeds exactly on the hashed
password) without modelling cryptographic one-wayness. -/
def hashPassword (password : Str) : Str := '#' :: password

/-- Modelled from the spec: the bcryptjs compare of a password against
a stored hash, succeeding exactly when the hash is the hash of the
password. -/
def bcryptCompare (password : Str) (hashed : Str) : Bool :=
  hashed = hashPassword password

/-- Translation of createNewUser (models.ts lines 115-131): builds the
document with revocation count 0 and the fresh ObjectID handed in by
the driver, and appends it to the collection. -/
def createNewUser (store : UserStore) (email password newId : Str) :
    User × UserStore :=
  let doc : User := ⟨newId, email, hashPassword password, 0⟩
  (doc, store ++ [doc])

/-- Mongo update documents as used by this repository: the only update
ever issued is a set of the count field; an atomic increment operator
is included to express what an atomic counter bump would be. -/
inductive UpdateOp where
  | setCount (v : Nat)
  | incCount (v : Nat)
deriving DecidableEq

/-- Applies a Mongo update document to a user document. -/
def applyUpdate : UpdateOp → User → User
  | .setCount v, u => { u with count := v }
  | .incCount v, u => { u with count := u.count + v }

/-- Translation of updateUser (models.ts lines 138-148): updateOne on
the first document matching the id; the result is whether the
modified count equals 1, which Mongo reports only when the document
changed. -/
def updateUser (store : UserStore) (id : Str) (op : UpdateOp) :
    Bool × UserStore :=
  match store with
  | [] => (false, [])
  | u :: rest =>
    if u._id = id then
      (applyUpdate op u ≠ u, applyUpdate op u :: rest)
    else
      let (ok, rest2) := updateUser rest id op
      (ok, u :: rest2)

/-! ### Token issuer and verifiers (utils.ts) -/

/-- Translation of accessTokenGenerator (utils.ts lines 27-30): signs
the user id with the access secret, expiring after 15 minutes. -/
def accessTokenGenerator (userId secret : Str) (now : Nat) : Str :=
  jwtSignAccess userId secret (now + 15 * 60)

/-- Translation of refreshTokenGenerator (utils.ts lines 39-43): signs
the user id and revocation count with the refresh secret, expiring
after 7 days. -/
def refreshTokenGenerator (userId : Str) (count : Nat) (secret : Str) (now : Nat) : Str :=
  jwtSignRefresh userId count secret (now + 7 * 24 * 60 * 60)

/-- Translation of verifyAccessToken (utils.ts lines 53-65): the
try/catch around jsonwebtoken verify, returning the embedded userId
or null. -/
def verifyAccessToken (token accessSecret : Str) (now : Nat) : Option Str :=
  jwtVerifyAccess token accessSecret now

/-- Translation of verifyRefreshToken (utils.ts lines 78-98): the
try/catch around jsonwebtoken verify, returning the embedded userId
and count or null. -/
def verifyRefreshToken (token refreshSecret : Str) (now : Nat) : Option (Str × Nat) :=
  jwtVerifyRefresh token refreshSecret now

/-- Access and refresh token pair (utils.ts lines 142-145). -/
structure AuthTokens where
  accessToken : Str
  refreshToken : Str
deriving DecidableEq

/-- Translation of signInVerifiedUser (utils.ts lines 154-161),
with the closed-over secrets of tokenGeneratorWithSecrets passed
explicitly. -/
def signInVerifiedUser (userId : Str) (count : Nat)
    (accessSecret refreshSecret : Str) (now : Nat) : AuthTokens :=
  ⟨accessTokenGenerator userId accessSecret now,
   refreshTokenGenerator userId count refreshSecret now⟩

/-! ### Cookie transport and session resolver (utils.ts) -/

/-- One serialized Set-Cookie entry with its max-age attribute. -/
structure SetCookie where
  name : Str
  value : Str
  maxAge : Nat
deriving DecidableEq

/-- Outbound response, reduced to its Set-Cookie header. -/
structure AuthResponse where
  setCookies : List SetCookie
deriving DecidableEq

/-- Translation of addTokensToCookies (utils.ts lines 168-180):
setHeader replaces the Set-Cookie header with the serialized
refresh-token cookie (max-age 60*60*24*7) and access-token cookie
(max-age 60*60*15). -/
def addTokensToCookies (tokens : AuthTokens) (res : AuthResponse) : AuthResponse :=
  { res with
    setCookies :=
      [⟨"refresh-token".data, tokens.refreshToken, 60 * 60 * 24 * 7⟩,
       ⟨"access-token".data, tokens.accessToken, 60 * 60 * 15⟩] }

/-- Inbound request, reduced to the fields getActiveUser reads: the
authorization header and the two token cookies as extracted by the
external cookie parser (utils.ts lines 198-201). A missing header or
cookie is none. -/
structure AuthRequest where
  authorization : Option Str
  accessTokenCookie : Option Str
  refreshTokenCookie : Option Str

/-- JavaScript truthiness of an optional string: undefined and the
empty string are falsy. -/
def truthy : Option Str → Bool
  | none => false
  | some s => !s.isEmpty

/-- The literal Bearer prefix stripped by getActiveUser. -/
def bearerPat : Str := "Bearer ".data

/-- Translation of the replace call on utils.ts line 204: JavaScript
String.replace with a string pattern removes only the first
occurrence of the pattern, anywhere in the string, and returns the
input unchanged when the pattern does not occur. -/
def replaceFirstBearer : Str → Str
  | [] => []
  | c :: cs =>
    if bearerPat.isPrefixOf (c :: cs) then (c :: cs).drop bearerPat.length
    else c :: replaceFirstBearer cs

/-- Whether the Bearer pattern occurs anywhere in the string. -/
def containsBearer : Str → Bool
  | [] => false
  | c :: cs => bearerPat.isPrefixOf (c :: cs) || containsBearer cs

/-- Translation of getActiveUser (utils.ts lines 190-257). The bearer
branch strips the Bearer prefix and verifies the remainder as an
access token, returning the user lookup on success and null on
failure. Otherwise, with both cookies falsy the result is null; else
the access cookie is verified (a missing cookie makes jsonwebtoken
throw, caught as a failed verification), returning the lookup on
success; else the refresh cookie is verified, and on a successful
lookup with matching revocation count a fresh pair is minted with
tokenGeneratorWithSecrets, written to the response cookies, and the
user returned; every other outcome is null. The pair of the resolved
user and the outbound response is returned. -/
def getActiveUser (req : AuthRequest) (res : AuthResponse)
    (accessTokenSecret refreshTokenSecret : Str)
    (store : UserStore) (now : Nat) : Option User × AuthResponse :=
  let oldAccessToken := req.accessTokenCookie
  let oldRefreshToken := req.refreshTokenCookie
  let bearerToken := req.authorization
  if truthy bearerToken then
    let token := replaceFirstBearer (bearerToken.getD [])
    match jwtVerifyAccess token accessTokenSecret now with
    | some userId => (findUserById store userId, res)
    | none => (none, res)
  else if !truthy oldAccessToken && !truthy oldRefreshToken then
    (none, res)
  else
    match jwtVerifyAccess (oldAccessToken.getD []) accessTokenSecret now with
    | some userId => (findUserById store userId, res)
    | none =>
      match jwtVerifyRefresh (oldRefreshToken.getD []) refreshTokenSecret now with
      | some (userId, count) =>
        match findUserById store userId with
        | some user =>
          if count = user.count then
            let accessToken := accessTokenGenerator user._id accessTokenSecret now
            let refreshToken :=
              refreshTokenGenerator user._id user.count refreshTokenSecret now
            (some user, addTokensToCookies ⟨accessToken, refreshToken⟩ res)
          else (none, res)
        | none => (none, res)
      | none => (none, res)

/-! ### Sign-in and sign-up orchestration (utils.ts and the resolvers) -/

/-- Payload returned by the auth mutations: the token pair plus the
revocation count it was minted against. -/
structure AuthPayload where
  accessToken : Str
  refreshToken : Str
  count : Nat
deriving DecidableEq

/-- Translation of signInHelper (utils.ts lines 268-293): mints the
pair via signInVerifiedUser, writes it to the response cookies only
when useCookies is set, and returns the pair with the count. -/
def signInHelper (userId : Str) (count : Nat)
    (accessSecret refreshSecret : Str) (res : AuthResponse)
    (useCookies : Bool) (now : Nat) : AuthPayload × AuthResponse :=
  let tokens := signInVerifiedUser userId count accessSecret refreshSecret now
  (⟨tokens.accessToken, tokens.refreshToken, count⟩,
   if useCookies then addTokensToCookies tokens res else res)

/-- Translation of getValidatedUser (utils.ts lines 302-318): error
values carry the thrown message, which the resolver layer surfaces
to the caller. -/
def getValidatedUser (email password : Str) (store : UserStore) :
    Except Str User :=
  match findUserByEmail store email with
  | none => .error "Invalid email provided".data
  | some user =>
    if bcryptCompare password user.passwordHash then .ok user
    else .error "Invalid credential combination".data

/-- Translation of the signUp mutation resolver: rejects an existing
email with the thrown message, otherwise creates the user (with the
fresh ObjectID handed in) and signs it in via signInHelper. -/
def signUpMutation (email password : Str) (cookies : Bool)
    (store : UserStore) (res : AuthResponse) (newId : Str)
    (accessSecret refreshSecret : Str) (now : Nat) :
    Except Str AuthPayload × UserStore × AuthResponse :=
  if isUser store email then
    (.error ("User with ".data ++ email ++ " already exists".data), store, res)
  else
    let created := createNewUser store email password newId
    let signed := signInHelper created.1._id created.1.count
      accessSecret refreshSecret res cookies now
    (.ok signed.1, created.2, signed.2)

/-- Translation of the refreshTokens mutation resolver: verifies the
supplied refresh token, looks up the user, and on a matching count
returns a fresh pair minted by signInHelper without cookies; the
response from the context is never touched. -/
def refreshTokensMutation (refreshToken : Str) (store : UserStore)
    (accessSecret refreshSecret : Str) (res : AuthResponse) (now : Nat) :
    Option AuthPayload × AuthResponse :=
  match jwtVerifyRefresh refreshToken refreshSecret now with
  | some data =>
    match findUserById store data.1 with
    | some user =>
      if user.count = data.2 then
        ((signInHelper data.1 data.2 accessSecret refreshSecret res false now).1,
          res)
      else (none, res)
    | none => (none, res)
  | none => (none, res)

/-- Translation of the invalidateTokens mutation resolver: with an
authenticated context user it issues updateUser with a Mongo set of
count to the snapshot count plus 1; otherwise it returns false. -/
def invalidateTokensMutation (ctxUser : Option User) (store : UserStore) :
    Bool × UserStore :=
  match ctxUser with
  | some user => updateUser store user._id (.setCount (user.count + 1))
  | none => (false, store)

/-! ### Claim theorems -/

/-- Claim C6: issue-then-verify round trip. For every user id and
every verification time before the expiry of a token produced by the
access-token generator, verifying with the same secret yields exactly
that user id. -/
theorem accessToken_roundtrip (uid secret : Str) (now now2 : Nat)
    (h : now2 < now + 900) :
    verifyAccessToken (accessTokenGenerator uid secret now) secret now2 = some uid := by
  rw [verifyAccessToken, accessTokenGenerator]
  exact jwtVerifyAccess_sign uid secret (now + 15 * 60) now2 (by omega)

theorem accessToken_roundtrip_witness :
    0 < 0 + 900 ∧
      verifyAccessToken (accessTokenGenerator ['a'] ['s'] 0) ['s'] 0 = some ['a'] :=
  ⟨by norm_num, accessToken_roundtrip ['a'] ['s'] 0 0 (by norm_num)⟩

/-- Claim C8: token verification is a total function of the input
string and never raises; it yields the embedded claims exactly on a
genuinely signed, unexpired token under the given secret, and the
single invalid result none in every other case (bad signature,
corrupt encoding, past expiry), for both token kinds. -/
theorem verify_total_uniform_invalid (tok secret : Str) (now : Nat) :
    (verifyAccessToken tok secret now = none ∨
      ∃ uid exp, tok = jwtSignAccess uid secret exp ∧ now < exp ∧
        verifyAccessToken tok secret now = some uid) ∧
    (verifyRefreshToken tok secret now = none ∨
      ∃ uid cnt exp, tok = jwtSignRefresh uid cnt secret exp ∧ now < exp ∧
        verifyRefreshToken tok secret now = some (uid, cnt)) := by
  constructor
  · cases h1 : parseNat tok with
    | none => left; simp [verifyAccessToken, jwtVerifyAccess, h1]
    | some p1 =>
      by_cases hk : p1.1 = 0
      · cases h2 : parseStr p1.2 with
        | none => left; simp [verifyAccessToken, jwtVerifyAccess, h1, hk, h2]
        | some p2 =>
          cases h3 : parseNat p2.2 with
          | none => left; simp [verifyAccessToken, jwtVerifyAccess, h1, hk, h2, h3]
          | some p3 =>
            by_cases hc : tok = jwtSignAccess p2.1 secret p3.1 ∧ now < p3.1
            · right
              refine ⟨p2.1, p3.1, hc.1, hc.2, ?_⟩
              rw [verifyAccessToken, jwtVerifyAccess, h1, Option.some_bind, if_pos hk,
                h2, Option.some_bind, h3, Option.some_bind, if_pos hc]
            · left; simp [verifyAccessToken, jwtVerifyAccess, h1, hk, h2, h3, hc]
      · left; simp [verifyAccessToken, jwtVerifyAccess, h1, hk]
  · cases h1 : parseNat tok with
    | none => left; simp [verifyRefreshToken, jwtVerifyRefresh, h1]
    | some p1 =>
      by_cases hk : p1.1 = 1
      · cases h2 : parseStr p1.2 with
        | none => left; simp [verifyRefreshToken, jwtVerifyRefresh, h1, hk, h2]
        | some p2 =>
          cases h3 : parseNat p2.2 with
          | none => left; simp [verifyRefreshToken, jwtVerifyRefresh, h1, hk, h2, h3]
          | some p3 =>
            cases h4 : parseNat p3.2 with
            | none =>
              left; simp [verifyRefreshToken, jwtVerifyRefresh, h1, hk, h2, h3, h4]
            | some p4 =>
              by_cases hc : tok = jwtSignRefresh p2.1 p3.1 secret p4.1 ∧ now < p4.1
              · right
                refine ⟨p2.1, p3.1, p4.1, hc.1, hc.2, ?_⟩
                rw [verifyRefreshToken, jwtVerifyRefresh, h1, Option.some_bind, if_pos hk,
                  h2, Option.some_bind, h3, Option.some_bind, h4, Option.some_bind,
                  if_pos hc]
              · left
                simp [verifyRefreshToken, jwtVerifyRefresh, h1, hk, h2, h3, h4, hc]
      · left; simp [verifyRefreshToken, jwtVerifyRefresh, h1, hk]

/-- Claim C7 (divergence witness): whenever tokens are written to the
outbound response, the refresh-token cookie is set with max-age
604800 seconds, but the access-token cookie is set with max-age
60*60*15 = 54000 seconds, not the 900 seconds the claim states. -/
theorem addTokensToCookies_maxAges (tokens : AuthTokens) (res : AuthResponse) :
    (addTokensToCookies tokens res).setCookies =
      [⟨"refresh-token".data, tokens.refreshToken, 604800⟩,
       ⟨"access-token".data, tokens.accessToken, 54000⟩] ∧ (54000 : Nat) ≠ 900 :=
  ⟨rfl, by norm_num⟩

/-- Claim C2 (divergence witness): with a store holding one user with
email a and password p, validating an unknown email and validating
the known email with a wrong password surface two different error
values to the caller, so the two failure causes are externally
distinguishable. -/
theorem getValidatedUser_distinct_failure_messages :
    getValidatedUser ['b'] ['p'] [⟨['i'], ['a'], hashPassword ['p'], 0⟩] =
        .error "Invalid email provided".data ∧
    getValidatedUser ['a'] ['q'] [⟨['i'], ['a'], hashPassword ['p'], 0⟩] =
        .error "Invalid credential combination".data ∧
    ("Invalid email provided".data : Str) ≠ "Invalid credential combination".data :=
  ⟨rfl, rfl, by decide⟩

/-- Claim C3 (divergence witness): the invalidateTokens resolver
issues a Mongo set of count to the context snapshot count plus one,
a caller-side read-modify-write. Two invalidations whose contexts
both loaded the user at count 0 leave the stored count at 1: the
second write collapses into the first instead of summing to 2. -/
theorem invalidateTokens_read_modify_write_collapse :
    (invalidateTokensMutation (some ⟨['i'], ['a'], ['h'], 0⟩)
        (invalidateTokensMutation (some ⟨['i'], ['a'], ['h'], 0⟩)
          [⟨['i'], ['a'], ['h'], 0⟩]).2).2 =
      [⟨['i'], ['a'], ['h'], 1⟩] ∧
    ([⟨['i'], ['a'], ['h'], 1⟩] : UserStore) ≠ [⟨['i'], ['a'], ['h'], 2⟩] :=
  ⟨rfl, by decide⟩

/-- Claim C9: signUp rejects an existing email with the thrown
conflict error and an unchanged store; otherwise it appends a new
user whose stored revocation count is 0 and returns the token pair
minted at count 0 together with that count. -/
theorem signUp_count_zero (email password newId accessSecret refreshSecret : Str)
    (cookies : Bool) (store : UserStore) (res : AuthResponse) (now : Nat) :
    signUpMutation email password cookies store res newId accessSecret refreshSecret now =
      if isUser store email then
        (.error ("User with ".data ++ email ++ " already exists".data), store, res)
      else
        (.ok ⟨accessTokenGenerator newId accessSecret now,
              refreshTokenGenerator newId 0 refreshSecret now, 0⟩,
         store ++ [⟨newId, email, hashPassword password, 0⟩],
         if cookies then
           addTokensToCookies
             ⟨accessTokenGenerator newId accessSecret now,
              refreshTokenGenerator newId 0 refreshSecret now⟩ res
         else res) := by
  by_cases h : isUser store email <;>
    simp [signUpMutation, h, createNewUser, signInHelper, signInVerifiedUser]

/-- Claim C4: for a request carrying a non-empty authorization
header, getActiveUser decides solely on that header: it verifies the
Bearer-stripped header value as an access token, returns the user
lookup by the embedded id on success and null on failure, and in
either case leaves the outbound response untouched, never falling
back to the cookie or refresh paths. -/
theorem getActiveUser_bearer_only (req : AuthRequest) (res : AuthResponse)
    (accessSecret refreshSecret : Str) (store : UserStore) (now : Nat) (h : Str)
    (hauth : req.authorization = some h) (hne : h ≠ []) :
    getActiveUser req res accessSecret refreshSecret store now =
      ((jwtVerifyAccess (replaceFirstBearer h) accessSecret now).bind
        (fun uid => findUserById store uid), res) := by
  have ht : truthy (some h) = true := by
    cases h with
    | nil => exact absurd rfl hne
    | cons c cs => rfl
  simp only [getActiveUser, hauth, ht, if_true, Option.getD_some]
  cases hv : jwtVerifyAccess (replaceFirstBearer h) accessSecret now with
  | none => simp [hv]
  | some uid => simp [hv]

theorem getActiveUser_bearer_only_witness :
    (some (['x'] : Str) = some (['x'] : Str)) ∧
      getActiveUser ⟨some ['x'], none, none⟩ ⟨[]⟩ ['s'] ['r'] [] 0 = (none, ⟨[]⟩) := by
  refine ⟨rfl, ?_⟩
  rw [getActiveUser_bearer_only ⟨some ['x'], none, none⟩ ⟨[]⟩ ['s'] ['r'] [] 0 ['x']
    rfl (by decide)]
  decide

/-- Claim C5: the standalone refreshTokens operation never touches
the outbound response, returns a pair exactly when the supplied
token verifies as a refresh token whose user exists with a stored
revocation count equal to the embedded one, and in that case returns
the freshly minted pair bound to that same count; every other case
yields null, so in particular a refresh token minted against an
older count is refused after a revocation bumps the stored count. -/
theorem refreshTokens_counter_match_iff (refreshToken : Str) (store : UserStore)
    (accessSecret refreshSecret : Str) (res : AuthResponse) (now : Nat) :
    (refreshTokensMutation refreshToken store accessSecret refreshSecret res now).2 = res ∧
    ((refreshTokensMutation refreshToken store accessSecret refreshSecret res now).1.isSome
        = true ↔
      ∃ uid cnt u, jwtVerifyRefresh refreshToken refreshSecret now = some (uid, cnt) ∧
        findUserById store uid = some u ∧ u.count = cnt) ∧
    (∀ uid cnt u, jwtVerifyRefresh refreshToken refreshSecret now = some (uid, cnt) →
      findUserById store uid = some u → u.count = cnt →
      (refreshTokensMutation refreshToken store accessSecret refreshSecret res now).1 =
        some ⟨accessTokenGenerator uid accessSecret now,
              refreshTokenGenerator uid cnt refreshSecret now, cnt⟩) := by
  refine ⟨?_, ?_, ?_⟩
  · rw [refreshTokensMutation]
    split
    · split
      · split
        · rfl
        · rfl
      · rfl
    · rfl
  · constructor
    · intro hs
      rw [refreshTokensMutation] at hs
      split at hs
      · rename_i data hv2
        split at hs
        · rename_i user hu2
          split at hs
          · rename_i hc2
            exact ⟨data.1, data.2, user, hv2, hu2, hc2⟩
          · simp at hs
        · simp at hs
      · simp at hs
    · rintro ⟨uid, cnt, u, hv, hu, hc⟩
      simp [refreshTokensMutation, hv, hu, hc]
  · intro uid cnt u hv hu hc
    simp [refreshTokensMutation, hv, hu, hc, signInHelper, signInVerifiedUser]

theorem refreshTokens_counter_match_iff_witness :
    (refreshTokensMutation (refreshTokenGenerator ['a'] 0 ['r'] 0)
        [⟨['a'], ['e'], ['h'], 0⟩] ['s'] ['r'] ⟨[]⟩ 1).1 =
      some ⟨accessTokenGenerator ['a'] ['s'] 1,
            refreshTokenGenerator ['a'] 0 ['r'] 1, 0⟩ :=
  (refreshTokens_counter_match_iff (refreshTokenGenerator ['a'] 0 ['r'] 0)
    [⟨['a'], ['e'], ['h'], 0⟩] ['s'] ['r'] ⟨[]⟩ 1).2.2 ['a'] 0
    ⟨['a'], ['e'], ['h'], 0⟩ (by decide) (by decide) rfl

/-- Claim C1: with no bearer header, an access cookie that is absent
or fails verification, and a refresh cookie that verifies with
embedded id and count, getActiveUser behaves as the renewal step: if
the user lookup succeeds and the stored revocation count equals the
embedded one, it returns that user and writes a brand-new pair bound
to that same count to the outbound response cookies; a count mismatch
or lookup failure returns null with the response untouched. -/
theorem getActiveUser_refresh_renewal (req : AuthRequest) (res : AuthResponse)
    (accessSecret refreshSecret : Str) (store : UserStore) (now : Nat)
    (uid : Str) (cnt : Nat)
    (hb : truthy req.authorization = false)
    (ha : jwtVerifyAccess (req.accessTokenCookie.getD []) accessSecret now = none)
    (hr : jwtVerifyRefresh (req.refreshTokenCookie.getD []) refreshSecret now =
      some (uid, cnt)) :
    getActiveUser req res accessSecret refreshSecret store now =
      match findUserById store uid with
      | some user =>
        if cnt = user.count then
          (some user,
           addTokensToCookies
             ⟨accessTokenGenerator user._id accessSecret now,
              refreshTokenGenerator user._id user.count refreshSecret now⟩ res)
        else (none, res)
      | none => (none, res) := by
  have hnil : jwtVerifyRefresh ([] : Str) refreshSecret now = none := rfl
  have htr : truthy req.refreshTokenCookie = true := by
    cases hrc : req.refreshTokenCookie with
    | none =>
      rw [hrc, Option.getD_none, hnil] at hr
      cases hr
    | some t =>
      cases t with
      | nil =>
        rw [hrc, Option.getD_some, hnil] at hr
        cases hr
      | cons c cs => rfl
  simp only [getActiveUser, hb, htr, ha, hr, Bool.not_true, Bool.and_false,
    Bool.false_eq_true, if_false]

theorem getActiveUser_refresh_renewal_witness :
    getActiveUser ⟨none, none, some (refreshTokenGenerator ['a'] 0 ['r'] 0)⟩ ⟨[]⟩
        ['s'] ['r'] [⟨['a'], ['e'], ['h'], 0⟩] 1 =
      (some ⟨['a'], ['e'], ['h'], 0⟩,
       addTokensToCookies
         ⟨accessTokenGenerator ['a'] ['s'] 1,
          refreshTokenGenerator ['a'] 0 ['r'] 1⟩ ⟨[]⟩) := by
  rw [getActiveUser_refresh_renewal ⟨none, none, some (refreshTokenGenerator ['a'] 0 ['r'] 0)⟩
    ⟨[]⟩ ['s'] ['r'] [⟨['a'], ['e'], ['h'], 0⟩] 1 ['a'] 0 rfl rfl (by decide)]
  decide

/-! ### Binary-alphabet lemmas for the Bearer-stripping claim -/

theorem binDigitsAux_chars (fuel : Nat) :
    ∀ n : Nat, ∀ c ∈ binDigitsAux fuel n, c = '0' ∨ c = '1' := by
  induction fuel with
  | zero => intro n c hc; simp [binDigitsAux] at hc
  | succ f ih =>
    intro n c hc
    rw [binDigitsAux] at hc
    by_cases h : n = 0
    · simp [h] at hc
    · rw [if_neg h] at hc
      rcases List.mem_cons.mp hc with h1 | h1
      · subst h1
        by_cases h2 : n % 2 = 1
        · right; rw [if_pos h2]
        · left; rw [if_neg h2]
      · exact ih (n / 2) c h1

theorem serNat_chars (n : Nat) : ∀ c ∈ serNat n, c = '0' ∨ c = '1' := by
  intro c hc
  rw [serNat] at hc
  rcases List.mem_append.mp hc with h | h
  · right; exact List.eq_of_mem_replicate h
  · rcases List.mem_cons.mp h with h1 | h1
    · left; exact h1
    · exact binDigitsAux_chars n n c h1

theorem serChars_chars (s : List Char) : ∀ c ∈ serChars s, c = '0' ∨ c = '1' := by
  induction s with
  | nil => intro c hc; simp [serChars] at hc
  | cons d ds ih =>
    intro c hc
    rw [serChars] at hc
    rcases List.mem_append.mp hc with h | h
    · exact serNat_chars d.toNat c h
    · exact ih c h

theorem serStr_chars (s : Str) : ∀ c ∈ serStr s, c = '0' ∨ c = '1' := by
  intro c hc
  rcases List.mem_append.mp hc with h | h
  · exact serNat_chars s.length c h
  · exact serChars_chars s c h

theorem jwtSignAccess_chars (uid secret : Str) (exp : Nat) :
    ∀ c ∈ jwtSignAccess uid secret exp, c = '0' ∨ c = '1' := by
  intro c hc
  rw [jwtSignAccess] at hc
  rcases List.mem_append.mp hc with h | h
  · exact serNat_chars 0 c h
  · rcases List.mem_append.mp h with h1 | h1
    · exact serStr_chars uid c h1
    · rcases List.mem_append.mp h1 with h2 | h2
      · exact serNat_chars exp c h2
      · exact serStr_chars secret c h2

theorem bearer_not_prefixOf_binary (l : Str)
    (hl : ∀ c ∈ l, c = '0' ∨ c = '1') : bearerPat.isPrefixOf l = false := by
  cases l with
  | nil => decide
  | cons c cs =>
    have hb : bearerPat = 'B' :: "earer ".data := by decide
    rcases hl c (List.mem_cons_self c cs) with h | h <;>
      subst h <;> simp [hb, List.isPrefixOf]

theorem containsBearer_binary (l : Str)
    (hl : ∀ c ∈ l, c = '0' ∨ c = '1') : containsBearer l = false := by
  induction l with
  | nil => rfl
  | cons c cs ih =>
    rw [containsBearer, bearer_not_prefixOf_binary (c :: cs) hl,
      ih (fun d hd => hl d (List.mem_cons_of_mem c hd))]
    rfl

theorem replaceFirstBearer_of_not_contains (l : Str)
    (h : containsBearer l = false) : replaceFirstBearer l = l := by
  induction l with
  | nil => rfl
  | cons c cs ih =>
    rw [containsBearer, Bool.or_eq_false_iff] at h
    rw [replaceFirstBearer, if_neg (by simp [h.1]), ih h.2]

/-- Claim C10: the bearer branch only strips the first occurrence of
the literal Bearer-space pattern, so any header in which the pattern
does not occur is verified as-is; in particular a signed access token
never contains the pattern (its alphabet is 0/1), so a valid,
unexpired access token supplied as the raw authorization header,
without the Bearer scheme, still authenticates its user. -/
theorem getActiveUser_bearer_raw_token :
    (∀ h : Str, containsBearer h = false → replaceFirstBearer h = h) ∧
    (∀ (uid accessSecret refreshSecret : Str) (now now2 : Nat)
        (store : UserStore) (res : AuthResponse) (cookA cookR : Option Str),
      now2 < now + 900 →
        bearerPat.isPrefixOf (accessTokenGenerator uid accessSecret now) = false ∧
        getActiveUser ⟨some (accessTokenGenerator uid accessSecret now), cookA, cookR⟩
            res accessSecret refreshSecret store now2 =
          (findUserById store uid, res)) := by
  constructor
  · exact fun h hh => replaceFirstBearer_of_not_contains h hh
  · intro uid accessSecret refreshSecret now now2 store res cookA cookR hlt
    have hbin : ∀ c ∈ accessTokenGenerator uid accessSecret now, c = '0' ∨ c = '1' := by
      rw [accessTokenGenerator]
      exact jwtSignAccess_chars uid accessSecret (now + 15 * 60)
    have hpre : bearerPat.isPrefixOf (accessTokenGenerator uid accessSecret now) = false :=
      bearer_not_prefixOf_binary _ hbin
    refine ⟨hpre, ?_⟩
    have hid : replaceFirstBearer (accessTokenGenerator uid accessSecret now) =
        accessTokenGenerator uid accessSecret now :=
      replaceFirstBearer_of_not_contains _ (containsBearer_binary _ hbin)
    have htru : truthy (some (accessTokenGenerator uid accessSecret now)) = true := rfl
    have hv : jwtVerifyAccess (accessTokenGenerator uid accessSecret now)
        accessSecret now2 = some uid := by
      rw [accessTokenGenerator]
      exact jwtVerifyAccess_sign uid accessSecret (now + 15 * 60) now2 (by omega)
    simp [getActiveUser, htru, hid, hv]

theorem getActiveUser_bearer_raw_token_witness :
    0 < 0 + 900 ∧
      getActiveUser ⟨some (accessTokenGenerator ['a'] ['s'] 0), none, none⟩ ⟨[]⟩
          ['s'] ['r'] [⟨['a'], ['e'], ['h'], 0⟩] 0 =
        (findUserById [⟨['a'], ['e'], ['h'], 0⟩] ['a'], ⟨[]⟩) :=
  ⟨by norm_num,
    (getActiveUser_bearer_raw_token.2 ['a'] ['s'] ['r'] 0 0
      [⟨['a'], ['e'], ['h'], 0⟩] ⟨[]⟩ none none (by norm_num)).2⟩
